import Mathlib

set_option autoImplicit false

namespace Repolinter

/-- Spec section 3 describes plugin option payloads as opaque values that the
engine core never interprets: it only hands them through to plugins and, in
the legacy dialect, defaults a missing options entry to the empty object.
We therefore model a JSON options value opaquely, keeping just the empty
object (the only value the core itself constructs) and an uninterpreted
payload constructor. -/
inductive Json where
  | emptyObj : Json
  | value (raw : String) : Json
  deriving Repr, DecidableEq

/-- A path-scoped verdict inside a plugin Result (the `targets` entries of
shape `path, passed` used throughout `runRuleset`). -/
structure Target where
  path : String
  passed : Bool
  deriving Repr, DecidableEq

/-- The plugin Result contract (`new Result(message, targets, passed)` as
called in `determineTargets`, shape documented in the JSDoc of `runRuleset`
and spec section 3): a message, a list of path-scoped targets and a verdict. -/
structure Result where
  message : String
  targets : List Target
  passed : Bool
  deriving Repr, DecidableEq

/-- The canonical rule descriptor, constructed via `new RuleInfo(name, level,
where, ruleType, ruleConfig, fixType, fixConfig, policyInfo, policyUrl)` in
`parseConfig`. Fields that JavaScript leaves `undefined` (no fix declared,
no options, no policy metadata) are modelled as `Option`s. -/
structure RuleInfo where
  name : String
  level : String
  «where» : List String
  ruleType : String
  ruleConfig : Option Json
  fixType : Option String
  fixConfig : Option Json
  policyInfo : Option String
  policyUrl : Option String
  deriving Repr, DecidableEq

/-- Status tags of a FormatResult (`FormatResult.ERROR`,
`FormatResult.IGNORED` and the two lint-carrying variants; spec section 3). -/
inductive FormatStatus where
  | ERROR | IGNORED | LINT_ONLY | LINT_AND_FIX
  deriving Repr, DecidableEq

/-- Modelled from the spec: `lib/formatresult.js` is not among the provided
sources. Spec section 3 defines FormatResult as a tagged union over ERROR,
IGNORED, LINT_ONLY and LINT_AND_FIX, each carrying the originating rule
descriptor plus an error message, an ignore reason, a rule-plugin Result, or
both a rule-plugin and a fix-plugin Result. The constructors correspond to
the `FormatResult.CreateError`, `FormatResult.CreateIgnored`,
`FormatResult.CreateLintOnly` and `FormatResult.CreateLintAndFix` calls in
the source. -/
inductive FormatResult where
  | error (ruleInfo : RuleInfo) (message : String)
  | ignored (ruleInfo : RuleInfo) (reason : String)
  | lintOnly (ruleInfo : RuleInfo) (lintResult : Result)
  | lintAndFix (ruleInfo : RuleInfo) (lintResult : Result) (fixResult : Result)
  deriving Repr, DecidableEq

/-- The `status` field of a FormatResult. -/
def FormatResult.status : FormatResult → FormatStatus
  | .error _ _ => .ERROR
  | .ignored _ _ => .IGNORED
  | .lintOnly _ _ => .LINT_ONLY
  | .lintAndFix _ _ _ => .LINT_AND_FIX

/-- The `ruleInfo` field of a FormatResult (every variant carries it). -/
def FormatResult.ruleInfo : FormatResult → RuleInfo
  | .error ri _ => ri
  | .ignored ri _ => ri
  | .lintOnly ri _ => ri
  | .lintAndFix ri _ _ => ri

/-- The `lintResult` field of a FormatResult; `undefined` on the ERROR and
IGNORED variants, modelled as `none`. -/
def FormatResult.lintResult : FormatResult → Option Result
  | .lintOnly _ r => some r
  | .lintAndFix _ r _ => some r
  | _ => none

/-- A rule plugin `(fileSystem, options) => Result`, which may throw: a
thrown or rejected fault is modelled as `Except.error` carrying the fault
message (`e.message`). The filesystem collaborator is abstract (spec
section 6): the core only hands it through. -/
abbrev RulePlugin (FS : Type) := FS → Option Json → Except String Result

/-- A fix plugin `(fileSystem, options, targets, dryRun) => Result`, same
fault convention as `RulePlugin`. -/
abbrev FixPlugin (FS : Type) := FS → Option Json → List String → Bool → Except String Result

/-- An axiom plugin `(fileSystem) => Result`, same fault convention. -/
abbrev AxiomPlugin (FS : Type) := FS → Except String Result

/-- The `targets` argument of `runRuleset`: either a boolean sentinel
(axiom filtering disabled; the JSDoc says "Use true for all targets" and the
code tests `typeof targets !== 'boolean'`) or the axiom-name-to-Result
object produced by `determineTargets`, modelled as an association list in
insertion order. -/
inductive TargetsArg where
  | bool (b : Bool)
  | map (entries : List (String × Result))
  deriving Repr, DecidableEq

/-- The flat axiom token array built at the top of `runRuleset`: keep the
entries whose Result `passed`, then for each emit `axiomId=*` followed by
`axiomId=path` for every target path, and flatten with
`reduce((a, c) => a.concat(c), [])`. -/
def buildTargetArray (targets : List (String × Result)) : List String :=
  (((targets.filter fun e => e.2.passed).map
      fun e => (e.1, e.2.targets.map fun t => t.path)).map
      fun e => (e.1 ++ "=*") :: e.2.map fun p => e.1 ++ "=" ++ p).foldl
    (fun a c => a ++ c) []

/-- The rule-execution tail of the per-rule closure in `runRuleset`: rule
registry lookup, rule invocation with `(fileSystem, ruleConfig)`, fix-target
computation, fix registry lookup, fix invocation with
`(fileSystem, fixConfig, fixTargets, dryRun)`. The rule and fix registries
(`loadRules` and `loadFixes` read the module-level `Rules` and `Fixes`
lists, whose files are not part of the provided sources) are passed as
association lists keyed by plugin identifier, so `hasOwnProperty` plus
member access becomes `List.lookup`. JavaScript's falsiness test
`!r.fixType` is true both for `undefined` and for the empty string. -/
def runRule {FS : Type} (allRules : List (String × RulePlugin FS))
    (allFixes : List (String × FixPlugin FS)) (fileSystem : FS) (dryRun : Bool)
    (r : RuleInfo) : FormatResult :=
  match allRules.lookup r.ruleType with
  | none => .error r (r.ruleType ++ " is not a valid rule")
  | some ruleFunc =>
    match ruleFunc fileSystem r.ruleConfig with
    | .error e => .error r (r.ruleType ++ " threw an error: " ++ e)
    | .ok result =>
      let fixTargets : List String :=
        if !result.passed then
          (result.targets.filter fun t => !t.passed && t.path != "").map fun t => t.path
        else []
      match r.fixType with
      | none => .lintOnly r result
      | some fixType =>
        if fixType == "" || result.passed then .lintOnly r result
        else
          match allFixes.lookup fixType with
          | none => .error r (fixType ++ " is not a valid fix")
          | some fixFunc =>
            match fixFunc fileSystem r.fixConfig fixTargets dryRun with
            | .error e => .error r (fixType ++ " threw an error: " ++ e)
            | .ok fixresult => .lintAndFix r result fixresult

/-- One rule's dispatch inside `runRuleset` (the body of `ruleset.map`):
the `level === 'off'` gate, then - only when the targets argument is not a
boolean, rendered here as `some targetArray` - the unsatisfied-condition
gate over `r.where`, then `runRule`. -/
def dispatchRule {FS : Type} (allRules : List (String × RulePlugin FS))
    (allFixes : List (String × FixPlugin FS)) (targetArray? : Option (List String))
    (fileSystem : FS) (dryRun : Bool) (r : RuleInfo) : FormatResult :=
  if r.level == "off" then .ignored r "ignored because level is \"off\""
  else
    match targetArray? with
    | some targetArray =>
      let ignoreReasons := r.«where».filter fun check =>
        (targetArray.find? fun tar => check == tar).isNone
      if !ignoreReasons.isEmpty then
        .ignored r ("ignored due to unsatisfied condition(s): \"" ++
          String.intercalate "\", \"" ignoreReasons ++ "\"")
      else runRule allRules allFixes fileSystem dryRun r
    | none => runRule allRules allFixes fileSystem dryRun r

/-- The token array `runRuleset` works with: `none` when the targets
argument is a boolean (both `typeof targets !== 'boolean'` guards in the
source fail together), otherwise the flat token array built from the map. -/
def resolveTargetArray : TargetsArg → Option (List String)
  | .bool _ => none
  | .map m => some (buildTargetArray m)

/-- `runRuleset(ruleset, targets, fileSystem, dryRun)`: build the token
array unless the targets argument is a boolean, then map every rule to its
FormatResult. `Promise.all` preserves input order, so the output is the
in-order map of `dispatchRule`. -/
def runRuleset {FS : Type} (ruleset : List RuleInfo) (targets : TargetsArg)
    (allRules : List (String × RulePlugin FS)) (allFixes : List (String × FixPlugin FS))
    (fileSystem : FS) (dryRun : Bool) : List FormatResult :=
  ruleset.map (dispatchRule allRules allFixes (resolveTargetArray targets) fileSystem dryRun)

/-- Whether one FormatResult makes the overall run fail, from the predicate
passed to `result.find` in `lint`:
`r.status === FormatResult.ERROR || (r.status !== FormatResult.IGNORED &&
r.ruleInfo.level === 'error' && !r.lintResult.passed)`. The JavaScript
short-circuit evaluation only reaches `r.lintResult.passed` on the
LINT_ONLY and LINT_AND_FIX variants, which is rendered as a match. -/
def failsVerdict : FormatResult → Bool
  | .error _ _ => true
  | .ignored _ _ => false
  | .lintOnly ri res => ri.level == "error" && !res.passed
  | .lintAndFix ri res _ => ri.level == "error" && !res.passed

/-- The overall verdict computed in `lint`:
`const passed = !result.find(...)`. -/
def lintPassed (results : List FormatResult) : Bool :=
  !(results.any failsVerdict)

/-- The per-entry closure of `determineTargets(axiomconfig, fs)`: for an
`axiomId, axiomName` configuration entry, produce the pair of the axiom
name and either the `invalid axiom name` Result (unregistered identifier)
or the plugin's output. The plugin invocation is not wrapped in try/catch,
so a fault (`Except.error`) propagates out of the whole resolution, exactly
as a rejected promise makes `Promise.all` reject; the final `reduce` into a
keyed object is modelled as the association list of the produced entries in
order. The axiom registry (`loadAxioms` reads the module-level `Axioms`
list, whose file is not part of the provided sources) is passed as an
association list. -/
def axiomStep {FS : Type} (allAxioms : List (String × AxiomPlugin FS)) (fs : FS)
    (e : String × String) : Except String (String × Result) :=
  match allAxioms.lookup e.1 with
  | none => Except.ok (e.2, Result.mk ("invalid axiom name " ++ e.1) [] false)
  | some axiomFunction => (axiomFunction fs).map fun res => (e.2, res)

/-- The traversal of `determineTargets` over the configuration entries,
awaiting every `axiomStep` like `Promise.all` over the mapped entries. -/
def determineTargets {FS : Type} (allAxioms : List (String × AxiomPlugin FS))
    (axiomconfig : List (String × String)) (fs : FS) :
    Except String (List (String × Result)) :=
  axiomconfig.mapM (axiomStep allAxioms fs)

/-- The `rule` object of a version-2 rule entry: `type` and optional
`options`. -/
structure RuleDecl where
  type : String
  options : Option Json
  deriving Repr, DecidableEq

/-- The optional `fix` object of a version-2 rule entry: `type` and optional
`options`. -/
structure FixDecl where
  type : String
  options : Option Json
  deriving Repr, DecidableEq

/-- One named entry of the version-2 `rules` mapping: `level`, `where`,
`rule`, optional `fix` and optional policy metadata. -/
structure V2RuleEntry where
  level : String
  «where» : List String
  rule : RuleDecl
  fix : Option FixDecl
  policyInfo : Option String
  policyUrl : Option String
  deriving Repr, DecidableEq

/-- One legacy rule value, the `["level", { options }]` array: a level and
an optional options object (`configray[0]` and `configray[1]`). -/
structure LegacyRuleEntry where
  level : String
  options : Option Json
  deriving Repr, DecidableEq

/-- A parsed configuration object. The source branches on
`config.version === 2`: a version-2 config carries a flat named-rule
mapping, a legacy config carries condition-group keys each holding a
`"ruleName:ruleType"` mapping. JavaScript objects preserve insertion order
in `Object.entries`, so both mappings are association lists. -/
inductive Config where
  | v2 (rules : List (String × V2RuleEntry))
  | legacy (rules : List (String × List (String × LegacyRuleEntry)))
  deriving Repr, DecidableEq

/-- JavaScript `String.prototype.split` with a single-character separator,
on the character list of the string: `"a"` gives `["a"]`, `"a:"` gives
`["a", ""]`, `""` gives `[""]`. -/
def splitChar (c : Char) : List Char → List (List Char)
  | [] => [[]]
  | x :: xs =>
    let rest := splitChar c xs
    if x = c then [] :: rest
    else
      match rest with
      | [] => [[x]]
      | r :: rs => (x :: r) :: rs

/-- JavaScript `s.split(c)` for a one-character separator `c`. -/
def jsSplit (s : String) (c : Char) : List String :=
  (splitChar c s.data).map fun l => String.mk l

/-- The version-2 branch of `parseConfig`, per entry:
`new RuleInfo(name, cfg.level, cfg.where, cfg.rule.type, cfg.rule.options,
cfg.fix && cfg.fix.type, cfg.fix && cfg.fix.options, cfg.policyInfo,
cfg.policyUrl)`; the `cfg.fix && ...` guards become `Option.map` and
`Option.bind`. -/
def parseV2Rule (e : String × V2RuleEntry) : RuleInfo :=
  RuleInfo.mk e.1 e.2.level e.2.«where» e.2.rule.type e.2.rule.options
    (e.2.fix.map FixDecl.type) (e.2.fix.bind FixDecl.options)
    e.2.policyInfo e.2.policyUrl

/-- The legacy branch of `parseConfig`, per rule entry inside one condition
group: `const [name, type] = rulename.split(':')` takes the first two split
segments, the group key `'all'` maps to an empty `where` and any other key
to `[key]`, the rule type is `type || name` (so an `undefined` or empty
second segment falls back to the name), and the options are
`configray[1] || {}`. -/
def parseLegacyRule (whereKey : String) (entry : String × LegacyRuleEntry) : RuleInfo :=
  let parts := jsSplit entry.1 ':'
  let name := parts.headD ""
  let type? := parts[1]?
  RuleInfo.mk name entry.2.level (if whereKey = "all" then [] else [whereKey])
    (match type? with
     | none => name
     | some t => if t = "" then name else t)
    (some (entry.2.options.getD Json.emptyObj)) none none none none

/-- `parseConfig(config)`: the version-2 branch maps the `rules` entries
1:1; the legacy branch maps every condition group to its descriptor list
and flattens with `reduce((a, c) => a.concat(c))`, which has no initial
accumulator and therefore throws a TypeError on an empty group list -
modelled as `Except.error` with the TypeError's message. -/
def parseConfig (config : Config) : Except String (List RuleInfo) :=
  match config with
  | .v2 rules => .ok (rules.map parseV2Rule)
  | .legacy rules =>
    match rules.map fun g => g.2.map (parseLegacyRule g.1) with
    | [] => .error "Reduce of empty array with no initial value"
    | g :: gs => .ok (gs.foldl (fun a c => a ++ c) g)

/-- The unsatisfied-condition computation of `dispatchRule`:
`r.where.filter(check => !targetArray.find(tar => check === tar))`. -/
def unsatisfiedConditions (targetArray : List String) (r : RuleInfo) : List String :=
  r.«where».filter fun check => (targetArray.find? fun tar => check == tar).isNone

/-- The legacy per-rule normalization exactly as the claim words it: the key
splits on ":", ruleName is the first segment, and ruleType defaults to
ruleName only when no ":" is present - so when a ":" is present the segment
after it is used verbatim, even when that segment is empty. Group key "all"
maps to an empty where list, any other key verbatim to a single-element
list; missing options default to the empty object. Stated for comparison
with `parseLegacyRule`. -/
def parseLegacyRuleClaim (whereKey : String) (entry : String × LegacyRuleEntry) : RuleInfo :=
  let parts := jsSplit entry.1 ':'
  let name := parts.headD ""
  RuleInfo.mk name entry.2.level (if whereKey = "all" then [] else [whereKey])
    (match parts[1]? with
     | none => name
     | some t => t)
    (some (entry.2.options.getD Json.emptyObj)) none none none none

/-- The legacy per-rule normalization with the amended default rule: the
ruleType falls back to the ruleName both when no ":" is present and when
the segment after the first ":" is empty (JavaScript `type || name` treats
the empty string as falsy). This matches `parseLegacyRule`. -/
def parseLegacyRuleAmended (whereKey : String) (entry : String × LegacyRuleEntry) : RuleInfo :=
  let parts := jsSplit entry.1 ':'
  let name := parts.headD ""
  RuleInfo.mk name entry.2.level (if whereKey = "all" then [] else [whereKey])
    (match parts[1]? with
     | none => name
     | some t => if t = "" then name else t)
    (some (entry.2.options.getD Json.emptyObj)) none none none none

/-- Fixture: a passing plugin Result. -/
def demoResult : Result := Result.mk "passed" [] true

/-- Fixture: a rule plugin that always returns `demoResult`. -/
def demoRulePlugin : RulePlugin Unit := fun _ _ => Except.ok demoResult

/-- Fixture: a rule registry containing only `demo-rule`. -/
def demoRules : List (String × RulePlugin Unit) := [("demo-rule", demoRulePlugin)]

/-- Fixture: an axiom-result map where the axiom named `language` matched
the single target `a.js`. -/
def languageAxiomMap : List (String × Result) :=
  [("language", Result.mk "language detection" [Target.mk "a.js" true] true)]

/-- Fixture: an error-level rule conditioned on `language=a.js`. -/
def whereRuleA : RuleInfo :=
  RuleInfo.mk "rule-a" "error" ["language=a.js"] "demo-rule" none none none none none

/-- Fixture: an error-level rule conditioned on `language=b.js`. -/
def whereRuleB : RuleInfo :=
  RuleInfo.mk "rule-b" "error" ["language=b.js"] "demo-rule" none none none none none

/-- Fixture: a rule descriptor with level off, a where condition and a
configured fix, exercising the off gate. -/
def offRule : RuleInfo :=
  RuleInfo.mk "off-rule" "off" ["language=a.js"] "demo-rule" none (some "demo-fix")
    none none none

/-- Fixture: a rule plugin that always throws. -/
def throwingRulePlugin : RulePlugin Unit := fun _ _ => Except.error "boom"

/-- Fixture: a rule registry containing only `throwing-rule`. -/
def c5Rules : List (String × RulePlugin Unit) := [("throwing-rule", throwingRulePlugin)]

/-- Fixture: a rule whose ruleType is not registered in `c5Rules`. -/
def nopeRule : RuleInfo :=
  RuleInfo.mk "nope" "error" [] "missing-rule" none none none none none

/-- Fixture: a rule whose plugin throws. -/
def badRule : RuleInfo :=
  RuleInfo.mk "bad" "error" [] "throwing-rule" none none none none none

/-- Fixture: target list with passing, failing and empty-path entries. -/
def failTargets : List Target :=
  [Target.mk "ok.js" true, Target.mk "fail1.js" false, Target.mk "" false,
    Target.mk "fail2.js" false]

/-- Fixture: a failing plugin Result over `failTargets`. -/
def failingResult : Result := Result.mk "failed" failTargets false

/-- Fixture: a rule plugin returning `failingResult`. -/
def failingRulePlugin : RulePlugin Unit := fun _ _ => Except.ok failingResult

/-- Fixture: a fix plugin that records the fix targets it received inside
its Result message. -/
def captureFixPlugin : FixPlugin Unit :=
  fun _ _ targets _ => Except.ok (Result.mk (String.intercalate "," targets) [] true)

/-- Fixture: a failing rule with a configured capture fix. -/
def fixRule : RuleInfo :=
  RuleInfo.mk "fix-rule" "error" [] "failing-rule" none (some "capture-fix")
    none none none

/-- Fixture: rule registry for the fix scenario. -/
def c6Rules : List (String × RulePlugin Unit) := [("failing-rule", failingRulePlugin)]

/-- Fixture: fix registry for the fix scenario. -/
def c6Fixes : List (String × FixPlugin Unit) := [("capture-fix", captureFixPlugin)]

/-- Fixture: an axiom plugin that resolves normally. -/
def okAxiomPlugin : AxiomPlugin Unit :=
  fun _ => Except.ok (Result.mk "ok" [Target.mk "a.js" true] true)

/-- Fixture: an axiom plugin that throws. -/
def throwingAxiomPlugin : AxiomPlugin Unit := fun _ => Except.error "boom"

deriving instance DecidableEq for Except

/-- JavaScript `reduce((a, c) => a.concat(c), init)` folds from the left;
relating the fold to `List.flatten`. -/
lemma foldl_append_eq_flatten {α : Type} (gs : List (List α)) (g : List α) :
    gs.foldl (fun a c => a ++ c) g = g ++ gs.flatten := by
  induction gs generalizing g with
  | nil => simp
  | cons x xs ih => simp [ih, List.append_assoc]

/-- Characterization of the per-result failure predicate used by the
overall verdict. -/
lemma failsVerdict_iff (r : FormatResult) :
    failsVerdict r = true ↔
      (r.status = FormatStatus.ERROR ∨
        (r.status ≠ FormatStatus.IGNORED ∧ r.ruleInfo.level = "error" ∧
          ∃ res, r.lintResult = some res ∧ res.passed = false)) := by
  cases r <;>
    simp [failsVerdict, FormatResult.status, FormatResult.ruleInfo, FormatResult.lintResult]

/-- C1: for every list of FormatResults produced by one run, the overall
verdict `passed` is false if and only if at least one FormatResult has
status ERROR, or at least one FormatResult is not IGNORED, has
ruleInfo.level equal to "error", and its lint Result has passed false;
warning-level failures and ignored entries never make the overall verdict
false. -/
theorem c1_overall_verdict (results : List FormatResult) :
    lintPassed results = false ↔
      ∃ r ∈ results, r.status = FormatStatus.ERROR ∨
        (r.status ≠ FormatStatus.IGNORED ∧ r.ruleInfo.level = "error" ∧
          ∃ res, r.lintResult = some res ∧ res.passed = false) := by
  simp only [lintPassed, Bool.not_eq_false', List.any_eq_true, failsVerdict_iff]

/-- C9: invoking runRuleset with the boolean false behaves identically to
invoking it with the boolean true: no token array is built, and every rule
is either off-ignored or fully executed, never IGNORED for unsatisfied
conditions - the off-switch sentinel is any boolean value, not only the
literal true. -/
theorem c9_bool_sentinel {FS : Type} (ruleset : List RuleInfo)
    (allRules : List (String × RulePlugin FS)) (allFixes : List (String × FixPlugin FS))
    (fileSystem : FS) (dryRun : Bool) (b : Bool) :
    runRuleset ruleset (TargetsArg.bool b) allRules allFixes fileSystem dryRun =
      runRuleset ruleset (TargetsArg.bool true) allRules allFixes fileSystem dryRun ∧
    resolveTargetArray (TargetsArg.bool b) = none ∧
    runRuleset ruleset (TargetsArg.bool b) allRules allFixes fileSystem dryRun =
      ruleset.map fun r =>
        if r.level == "off" then FormatResult.ignored r "ignored because level is \"off\""
        else runRule allRules allFixes fileSystem dryRun r :=
  ⟨rfl, rfl, rfl⟩

/-- C10: a legacy configuration whose rules mapping contains zero condition
groups makes parseConfig throw (the final concatenation folds the empty
group array with no initial accumulator), while legacy normalization
succeeds on every configuration with at least one condition group. -/
theorem c10_legacy_empty_throws :
    parseConfig (Config.legacy []) =
      Except.error "Reduce of empty array with no initial value" ∧
    ∀ g gs, ∃ l, parseConfig (Config.legacy (g :: gs)) = Except.ok l :=
  ⟨rfl, fun _ _ => ⟨_, rfl⟩⟩

/-- Reduction of `dispatchRule` when axiom filtering is active. -/
lemma dispatchRule_some {FS : Type} (allRules : List (String × RulePlugin FS))
    (allFixes : List (String × FixPlugin FS)) (ta : List String)
    (fileSystem : FS) (dryRun : Bool) (r : RuleInfo) :
    dispatchRule allRules allFixes (some ta) fileSystem dryRun r =
      if r.level == "off" then FormatResult.ignored r "ignored because level is \"off\""
      else if !(unsatisfiedConditions ta r).isEmpty then
        FormatResult.ignored r ("ignored due to unsatisfied condition(s): \"" ++
          String.intercalate "\", \"" (unsatisfiedConditions ta r) ++ "\"")
      else runRule allRules allFixes fileSystem dryRun r := rfl

/-- Reduction of `dispatchRule` when the boolean sentinel disabled axiom
filtering. -/
lemma dispatchRule_none {FS : Type} (allRules : List (String × RulePlugin FS))
    (allFixes : List (String × FixPlugin FS)) (fileSystem : FS) (dryRun : Bool)
    (r : RuleInfo) :
    dispatchRule allRules allFixes none fileSystem dryRun r =
      if r.level == "off" then FormatResult.ignored r "ignored because level is \"off\""
      else runRule allRules allFixes fileSystem dryRun r := rfl

/-- C3: for every rule whose level is not off and whose where list contains
at least one condition absent from the resolved token array (axiom
filtering active), dispatch yields an IGNORED FormatResult whose reason
lists exactly the unsatisfied conditions, quoted and comma-joined, even
when other conditions of the same where list are satisfied; no rule plugin
is invoked (the result is the same for every registry). -/
theorem c3_ignored_unsatisfied {FS : Type} (allRules : List (String × RulePlugin FS))
    (allFixes : List (String × FixPlugin FS)) (targetArray : List String)
    (fileSystem : FS) (dryRun : Bool) (r : RuleInfo)
    (hoff : r.level ≠ "off")
    (h : ∃ cond ∈ r.«where», cond ∉ targetArray) :
    (∀ cond, cond ∈ unsatisfiedConditions targetArray r ↔
        (cond ∈ r.«where» ∧ cond ∉ targetArray)) ∧
    dispatchRule allRules allFixes (some targetArray) fileSystem dryRun r =
      FormatResult.ignored r ("ignored due to unsatisfied condition(s): \"" ++
        String.intercalate "\", \"" (unsatisfiedConditions targetArray r) ++ "\"") := by
  have hmem : ∀ cond, cond ∈ unsatisfiedConditions targetArray r ↔
      (cond ∈ r.«where» ∧ cond ∉ targetArray) := by
    intro cond
    simp only [unsatisfiedConditions, List.mem_filter, Option.isNone_iff_eq_none,
      List.find?_eq_none, beq_iff_eq]
    exact and_congr_right fun _ =>
      ⟨fun h' hc => h' cond hc rfl, fun h' x hx he => h' (he ▸ hx)⟩
  refine ⟨hmem, ?_⟩
  have hoffb : (r.level == "off") = false := by simp [hoff]
  have hne : unsatisfiedConditions targetArray r ≠ [] := by
    obtain ⟨cond, hc, hn⟩ := h
    exact List.ne_nil_of_mem ((hmem cond).2 ⟨hc, hn⟩)
  have hisEmpty : (unsatisfiedConditions targetArray r).isEmpty = false := by
    cases hu : unsatisfiedConditions targetArray r with
    | nil => exact absurd hu hne
    | cons a l => rfl
  rw [dispatchRule_some]
  simp [hoffb, hisEmpty]

/-- C3 witness: the rule conditioned on `language=b.js` against the token
array resolved from the language axiom. -/
theorem c3_witness :
    (whereRuleB.level ≠ "off" ∧ "language=b.js" ∈ whereRuleB.«where» ∧
      "language=b.js" ∉ (["language=*", "language=a.js"] : List String)) ∧
    dispatchRule demoRules [] (some ["language=*", "language=a.js"]) () false
        whereRuleB =
      FormatResult.ignored whereRuleB ("ignored due to unsatisfied condition(s): \"" ++
        String.intercalate "\", \""
          (unsatisfiedConditions ["language=*", "language=a.js"] whereRuleB) ++ "\"") :=
  ⟨⟨by decide, by decide, by decide⟩,
    (c3_ignored_unsatisfied demoRules [] ["language=*", "language=a.js"] () false whereRuleB
      (by decide) ⟨"language=b.js", by decide, by decide⟩).2⟩

/-- C4 counterexample: the actual ignore reason quotes the word off
(`ignored because level is "off"`), which differs from the reason string
the claim states (`ignored because level is off`). -/
theorem c4_counterexample :
    dispatchRule ([] : List (String × RulePlugin Unit)) [] none () false offRule =
      FormatResult.ignored offRule "ignored because level is \"off\"" ∧
    "ignored because level is \"off\"" ≠ "ignored because level is off" :=
  ⟨rfl, by decide⟩

/-- C4 amended: for every rule descriptor with level off, dispatch yields
an IGNORED FormatResult with reason `ignored because level is "off"` (the
word off is quoted in the source), and neither the rule plugin nor any fix
plugin is invoked, regardless of the where conditions or the axiom
results - the result is the same for every registry, token array,
filesystem and dryRun flag. -/
theorem c4_level_off_ignored {FS : Type} (allRules : List (String × RulePlugin FS))
    (allFixes : List (String × FixPlugin FS)) (targetArray? : Option (List String))
    (fileSystem : FS) (dryRun : Bool) (r : RuleInfo) (h : r.level = "off") :
    dispatchRule allRules allFixes targetArray? fileSystem dryRun r =
      FormatResult.ignored r "ignored because level is \"off\"" := by
  simp [dispatchRule, h]

/-- C4 witness: the off-level fixture rule. -/
theorem c4_witness :
    offRule.level = "off" ∧
    dispatchRule demoRules [] (some []) () true offRule =
      FormatResult.ignored offRule "ignored because level is \"off\"" :=
  ⟨rfl, c4_level_off_ignored demoRules [] (some []) () true offRule rfl⟩

/-- When a rule is not off and all its conditions are satisfied (or axiom
filtering is off), dispatch reaches the rule-execution tail. -/
lemma dispatchRule_eq_runRule {FS : Type} (allRules : List (String × RulePlugin FS))
    (allFixes : List (String × FixPlugin FS)) (targetArray? : Option (List String))
    (fileSystem : FS) (dryRun : Bool) (r : RuleInfo)
    (hoff : r.level ≠ "off")
    (hwhere : ∀ ta, targetArray? = some ta → unsatisfiedConditions ta r = []) :
    dispatchRule allRules allFixes targetArray? fileSystem dryRun r =
      runRule allRules allFixes fileSystem dryRun r := by
  have hoffb : (r.level == "off") = false := by simp [hoff]
  cases targetArray? with
  | none => rw [dispatchRule_none]; simp [hoffb]
  | some ta =>
    have h1 : unsatisfiedConditions ta r = [] := hwhere ta rfl
    rw [dispatchRule_some]
    simp [hoffb, h1]

/-- C5: per-rule faults are contained and converted to ERROR FormatResults
without aborting sibling rules: a rule whose ruleType is unregistered
yields ERROR `<type> is not a valid rule` and invokes no plugin; a rule
whose plugin throws yields ERROR `<type> threw an error: <message>`; and
every slot of a runRuleset batch is determined by its own rule alone, so
every other rule still yields its own FormatResult. -/
theorem c5_fault_containment :
    (∀ (FS : Type) (allRules : List (String × RulePlugin FS))
        (allFixes : List (String × FixPlugin FS)) (targetArray? : Option (List String))
        (fileSystem : FS) (dryRun : Bool) (r : RuleInfo),
        r.level ≠ "off" →
        (∀ ta, targetArray? = some ta → unsatisfiedConditions ta r = []) →
        allRules.lookup r.ruleType = none →
        dispatchRule allRules allFixes targetArray? fileSystem dryRun r =
          FormatResult.error r (r.ruleType ++ " is not a valid rule")) ∧
    (∀ (FS : Type) (allRules : List (String × RulePlugin FS))
        (allFixes : List (String × FixPlugin FS)) (targetArray? : Option (List String))
        (fileSystem : FS) (dryRun : Bool) (r : RuleInfo) (f : RulePlugin FS) (msg : String),
        r.level ≠ "off" →
        (∀ ta, targetArray? = some ta → unsatisfiedConditions ta r = []) →
        allRules.lookup r.ruleType = some f →
        f fileSystem r.ruleConfig = Except.error msg →
        dispatchRule allRules allFixes targetArray? fileSystem dryRun r =
          FormatResult.error r (r.ruleType ++ " threw an error: " ++ msg)) ∧
    (∀ (FS : Type) (ruleset : List RuleInfo) (targets : TargetsArg)
        (allRules : List (String × RulePlugin FS)) (allFixes : List (String × FixPlugin FS))
        (fileSystem : FS) (dryRun : Bool),
        (runRuleset ruleset targets allRules allFixes fileSystem dryRun).length =
          ruleset.length ∧
        ∀ i : Nat,
          (runRuleset ruleset targets allRules allFixes fileSystem dryRun)[i]? =
            (ruleset[i]?).map
              (dispatchRule allRules allFixes (resolveTargetArray targets) fileSystem dryRun)) := by
  refine ⟨?_, ?_, ?_⟩
  · intro FS allRules allFixes targetArray? fileSystem dryRun r hoff hwhere hlookup
    rw [dispatchRule_eq_runRule allRules allFixes targetArray? fileSystem dryRun r hoff hwhere]
    simp [runRule, hlookup]
  · intro FS allRules allFixes targetArray? fileSystem dryRun r f msg hoff hwhere hlookup hrun
    rw [dispatchRule_eq_runRule allRules allFixes targetArray? fileSystem dryRun r hoff hwhere]
    simp [runRule, hlookup, hrun]
  · intro FS ruleset targets allRules allFixes fileSystem dryRun
    exact ⟨List.length_map .., fun i => List.getElem?_map ..⟩

/-- C5 witness: a registry with one throwing plugin, one rule referencing a
missing type and one rule whose plugin throws. -/
theorem c5_witness :
    (nopeRule.level ≠ "off" ∧ c5Rules.lookup nopeRule.ruleType = none ∧
      dispatchRule c5Rules [] none () false nopeRule =
        FormatResult.error nopeRule "missing-rule is not a valid rule") ∧
    (badRule.level ≠ "off" ∧ c5Rules.lookup badRule.ruleType = some throwingRulePlugin ∧
      throwingRulePlugin () badRule.ruleConfig = Except.error "boom" ∧
      dispatchRule c5Rules [] none () false badRule =
        FormatResult.error badRule "throwing-rule threw an error: boom") :=
  ⟨⟨by decide, rfl,
      c5_fault_containment.1 Unit c5Rules [] none () false nopeRule (by decide)
        (fun ta h => nomatch h) rfl⟩,
    ⟨by decide, rfl, rfl,
      c5_fault_containment.2.1 Unit c5Rules [] none () false badRule throwingRulePlugin
        "boom" (by decide) (fun ta h => nomatch h) rfl rfl⟩⟩

/-- C6: a failing rule with a configured fixType reports ERROR
`<type> is not a valid fix` on its own slot when the fixType is
unregistered; otherwise the fix plugin is invoked with
`(filesystem, fixConfig, fixTargets, dryRun)` where fixTargets is exactly
the list of paths of the rule Result's failing targets with a non-empty
path, and the FormatResult is LINT_AND_FIX carrying both Results; with no
fixType, or a passing rule Result, the FormatResult is LINT_ONLY and no
fix plugin is invoked. -/
theorem c6_fix_dispatch {FS : Type} (allRules : List (String × RulePlugin FS))
    (allFixes : List (String × FixPlugin FS)) (targetArray? : Option (List String))
    (fileSystem : FS) (dryRun : Bool) (r : RuleInfo) (f : RulePlugin FS) (result : Result)
    (hoff : r.level ≠ "off")
    (hwhere : ∀ ta, targetArray? = some ta → unsatisfiedConditions ta r = [])
    (hlookup : allRules.lookup r.ruleType = some f)
    (hrun : f fileSystem r.ruleConfig = Except.ok result) :
    ((r.fixType = none ∨ result.passed = true) →
      dispatchRule allRules allFixes targetArray? fileSystem dryRun r =
        FormatResult.lintOnly r result) ∧
    (∀ ft, r.fixType = some ft → ft ≠ "" → result.passed = false →
      (allFixes.lookup ft = none →
        dispatchRule allRules allFixes targetArray? fileSystem dryRun r =
          FormatResult.error r (ft ++ " is not a valid fix")) ∧
      (∀ fixFunc fixres, allFixes.lookup ft = some fixFunc →
        fixFunc fileSystem r.fixConfig
            ((result.targets.filter fun t => !t.passed && t.path != "").map fun t => t.path)
            dryRun = Except.ok fixres →
        dispatchRule allRules allFixes targetArray? fileSystem dryRun r =
          FormatResult.lintAndFix r result fixres)) := by
  rw [dispatchRule_eq_runRule allRules allFixes targetArray? fileSystem dryRun r hoff hwhere]
  constructor
  · rintro (hft | hp)
    · simp [runRule, hlookup, hrun, hft]
    · cases hft : r.fixType with
      | none => simp [runRule, hlookup, hrun, hft]
      | some ft => simp [runRule, hlookup, hrun, hft, hp]
  · intro ft hft hne hfail
    have hftb : (ft == "") = false := by simp [hne]
    constructor
    · intro hfix
      simp [runRule, hlookup, hrun, hft, hftb, hfail, hfix]
    · intro fixFunc fixres hfix hinvoke
      simp [runRule, hlookup, hrun, hft, hftb, hfail, hfix, hinvoke]

/-- C6 witness: the failing rule with the capture fix; the fix Result's
message records that the fix plugin received exactly the failing non-empty
paths `fail1.js` and `fail2.js`. -/
theorem c6_witness :
    fixRule.level ≠ "off" ∧ c6Rules.lookup fixRule.ruleType = some failingRulePlugin ∧
    failingRulePlugin () fixRule.ruleConfig = Except.ok failingResult ∧
    fixRule.fixType = some "capture-fix" ∧ failingResult.passed = false ∧
    c6Fixes.lookup "capture-fix" = some captureFixPlugin ∧
    dispatchRule c6Rules c6Fixes none () false fixRule =
      FormatResult.lintAndFix fixRule failingResult
        (Result.mk "fail1.js,fail2.js" [] true) := by
  refine ⟨by decide, rfl, rfl, rfl, rfl, rfl, ?_⟩
  exact ((c6_fix_dispatch c6Rules c6Fixes none () false fixRule failingRulePlugin
      failingResult (by decide) (fun ta h => nomatch h) rfl rfl).2 "capture-fix" rfl
      (by decide) rfl).2 captureFixPlugin (Result.mk "fail1.js,fail2.js" [] true) rfl rfl

/-- C2: the token set built from an axiom-result map contains, for each
AxiomResult with passed true, `name=*` plus `name=path` for every target
regardless of the target's own passed flag, and nothing for AxiomResults
with passed false; the language example yields exactly
`language=*, language=a.js`, a rule conditioned on `language=a.js` is not
ignored, and a rule conditioned on `language=b.js` is ignored listing
`language=b.js`. -/
theorem c2_axiom_tokens :
    (∀ (targets : List (String × Result)) (tok : String),
        tok ∈ buildTargetArray targets ↔
          ∃ e ∈ targets, e.2.passed = true ∧
            (tok = e.1 ++ "=*" ∨ ∃ t ∈ e.2.targets, tok = e.1 ++ "=" ++ t.path)) ∧
    buildTargetArray languageAxiomMap = ["language=*", "language=a.js"] ∧
    (runRuleset [whereRuleA] (TargetsArg.map languageAxiomMap) demoRules [] () false).map
        FormatResult.status = [FormatStatus.LINT_ONLY] ∧
    runRuleset [whereRuleB] (TargetsArg.map languageAxiomMap) demoRules [] () false =
      [FormatResult.ignored whereRuleB
        "ignored due to unsatisfied condition(s): \"language=b.js\""] := by
  refine ⟨?_, by decide, by decide, by decide⟩
  intro targets tok
  rw [buildTargetArray, foldl_append_eq_flatten, List.nil_append]
  simp only [List.map_map, List.mem_flatten, List.mem_map, List.mem_filter,
    Function.comp_apply, List.mem_cons]
  constructor
  · rintro ⟨l, ⟨e, ⟨he, hp⟩, rfl⟩, htok⟩
    refine ⟨e, he, hp, ?_⟩
    rcases List.mem_cons.mp htok with h | h
    · exact Or.inl h
    · obtain ⟨t, ht, heq⟩ := List.mem_map.mp h
      exact Or.inr ⟨t, ht, heq.symm⟩
  · rintro ⟨e, he, hp, h | ⟨t, ht, rfl⟩⟩
    · exact ⟨_, ⟨e, ⟨he, hp⟩, rfl⟩, List.mem_cons.mpr (Or.inl h)⟩
    · exact ⟨_, ⟨e, ⟨he, hp⟩, rfl⟩,
        List.mem_cons.mpr (Or.inr (List.mem_map.mpr ⟨t, ht, rfl⟩))⟩

/-- C7 counterexample: on the legacy key `a:` the source falls back to the
rule name (JavaScript `type || name` treats the empty split segment as
falsy), while the claim's wording keeps the empty segment as the ruleType;
and a legacy configuration with zero condition groups throws rather than
producing the empty concatenation. -/
theorem c7_counterexample :
    parseConfig (Config.legacy [("all", [("a:", LegacyRuleEntry.mk "error" none)])]) ≠
      Except.ok [parseLegacyRuleClaim "all" ("a:", LegacyRuleEntry.mk "error" none)] ∧
    parseConfig (Config.legacy []) ≠ Except.ok [] := by
  constructor <;> decide

/-- C7 amended: normalization produces exactly one RuleDescriptor per
configured rule entry, in declaration order: a version-2 configuration
yields one descriptor per rules entry in insertion order, and a legacy
configuration with at least one condition group yields the concatenation of
all groups' descriptors in group-then-rule order, where "all" maps to an
empty where list, any other group key maps verbatim to a single-element
where list, each "ruleName:ruleType" key splits on ":" with ruleType
defaulting to ruleName when no ":" is present or the segment after the
first ":" is empty, and missing per-rule options default to an empty
object. -/
theorem c7_normalize :
    (∀ rules : List (String × V2RuleEntry),
        ∃ l, parseConfig (Config.v2 rules) = Except.ok l ∧
          l.length = rules.length ∧ l = rules.map parseV2Rule) ∧
    (∀ g gs, ∃ l, parseConfig (Config.legacy (g :: gs)) = Except.ok l ∧
        l = ((g :: gs).map fun grp => grp.2.map (parseLegacyRuleAmended grp.1)).flatten) := by
  constructor
  · intro rules
    exact ⟨rules.map parseV2Rule, rfl, List.length_map .., rfl⟩
  · intro g gs
    refine ⟨_, rfl, ?_⟩
    show (gs.map fun grp => grp.2.map (parseLegacyRule grp.1)).foldl (fun a c => a ++ c)
        (g.2.map (parseLegacyRule g.1)) = _
    rw [foldl_append_eq_flatten, List.map_cons, List.flatten_cons]
    rfl

/-- Unfolding of the axiom resolution over an empty configuration. -/
lemma determineTargets_nil {FS : Type} (allAxioms : List (String × AxiomPlugin FS))
    (fs : FS) : determineTargets allAxioms [] fs = Except.ok [] := rfl

/-- Unfolding of the axiom resolution over a non-empty configuration. -/
lemma determineTargets_cons {FS : Type} (allAxioms : List (String × AxiomPlugin FS))
    (e : String × String) (rest : List (String × String)) (fs : FS) :
    determineTargets allAxioms (e :: rest) fs =
      (axiomStep allAxioms fs e).bind fun v =>
        (determineTargets allAxioms rest fs).bind fun vs => Except.ok (v :: vs) := by
  unfold determineTargets
  rw [List.mapM_cons]
  rfl

/-- C8: axiom resolution handles faults asymmetrically to rule dispatch:
an unregistered axiom identifier produces an `invalid axiom name` Result
with passed false and empty targets while sibling resolutions still
complete, but a plugin invocation that throws propagates uncaught and
aborts the entire resolution with no partial axiom map. -/
theorem c8_axiom_fault_asymmetry :
    (∀ (FS : Type) (allAxioms : List (String × AxiomPlugin FS))
        (axiomconfig : List (String × String)) (fs : FS),
        (∀ e ∈ axiomconfig, ∀ f, allAxioms.lookup e.1 = some f →
          ∃ res, f fs = Except.ok res) →
        ∃ m, determineTargets allAxioms axiomconfig fs = Except.ok m ∧
          m.length = axiomconfig.length ∧
          ∀ e ∈ axiomconfig, allAxioms.lookup e.1 = none →
            (e.2, Result.mk ("invalid axiom name " ++ e.1) [] false) ∈ m) ∧
    (∀ (FS : Type) (allAxioms : List (String × AxiomPlugin FS))
        (axiomconfig : List (String × String)) (fs : FS) (e : String × String)
        (f : AxiomPlugin FS) (msg : String),
        e ∈ axiomconfig → allAxioms.lookup e.1 = some f → f fs = Except.error msg →
        ∃ msg2, determineTargets allAxioms axiomconfig fs = Except.error msg2) := by
  constructor
  · intro FS allAxioms axiomconfig fs hok
    induction axiomconfig with
    | nil => exact ⟨[], rfl, rfl, fun e he => absurd he (List.not_mem_nil e)⟩
    | cons e rest ih =>
      obtain ⟨m, hm, hlen, hinv⟩ :=
        ih fun e' he' f hf => hok e' (List.mem_cons_of_mem e he') f hf
      rcases hstep : allAxioms.lookup e.1 with _ | f
      · refine ⟨(e.2, Result.mk ("invalid axiom name " ++ e.1) [] false) :: m, ?_, ?_, ?_⟩
        · rw [determineTargets_cons]
          simp [axiomStep, hstep, hm, Except.bind]
        · simp [hlen]
        · intro e' he' hnone
          rcases List.mem_cons.mp he' with rfl | he'
          · exact List.mem_cons_self ..
          · exact List.mem_cons_of_mem _ (hinv e' he' hnone)
      · obtain ⟨res, hres⟩ := hok e (List.mem_cons_self ..) f hstep
        refine ⟨(e.2, res) :: m, ?_, ?_, ?_⟩
        · rw [determineTargets_cons]
          simp [axiomStep, hstep, hres, hm, Except.bind, Except.map]
        · simp [hlen]
        · intro e' he' hnone
          rcases List.mem_cons.mp he' with rfl | he'
          · rw [hstep] at hnone; exact absurd hnone (by simp)
          · exact List.mem_cons_of_mem _ (hinv e' he' hnone)
  · intro FS allAxioms axiomconfig fs e f msg
    induction axiomconfig with
    | nil => intro hmem _ _; exact absurd hmem (List.not_mem_nil e)
    | cons x rest ih =>
      intro hmem hlookup hthrow
      rw [determineTargets_cons]
      rcases List.mem_cons.mp hmem with rfl | hmem'
      · exact ⟨msg, by simp [axiomStep, hlookup, hthrow, Except.bind, Except.map]⟩
      · cases hstep : axiomStep allAxioms fs x with
        | error m2 => exact ⟨m2, by simp [hstep, Except.bind]⟩
        | ok v =>
          obtain ⟨m2, hm2⟩ := ih hmem' hlookup hthrow
          exact ⟨m2, by simp [hstep, hm2, Except.bind]⟩

/-- C8 witness: a registry with one resolving axiom; a configuration with
the registered axiom and an unregistered one resolves fully with the
invalid-name Result present, while a registry whose plugin throws aborts
resolution. -/
theorem c8_witness :
    (∃ m, determineTargets [("linguist", okAxiomPlugin)]
          [("linguist", "language"), ("missing-ax", "custom")] () = Except.ok m ∧
        m.length = 2 ∧
        ∀ e ∈ ([("linguist", "language"), ("missing-ax", "custom")] :
            List (String × String)),
          ([("linguist", okAxiomPlugin)] : List (String × AxiomPlugin Unit)).lookup e.1 =
              none →
            (e.2, Result.mk ("invalid axiom name " ++ e.1) [] false) ∈ m) ∧
    ∃ msg2, determineTargets [("linguist", throwingAxiomPlugin)]
        [("linguist", "language")] () = Except.error msg2 := by
  constructor
  · exact c8_axiom_fault_asymmetry.1 Unit [("linguist", okAxiomPlugin)]
      [("linguist", "language"), ("missing-ax", "custom")] ()
      (by
        intro e he f hf
        rcases List.mem_cons.mp he with rfl | he'
        · refine ⟨Result.mk "ok" [Target.mk "a.js" true] true, ?_⟩
          have : f = okAxiomPlugin := by
            have h0 : ([("linguist", okAxiomPlugin)] :
                List (String × AxiomPlugin Unit)).lookup "linguist" = some okAxiomPlugin := rfl
            rw [h0] at hf
            exact (Option.some.injEq ..).mp hf.symm
          rw [this]; rfl
        · rcases List.mem_cons.mp he' with rfl | h0
          · have h1 : ([("linguist", okAxiomPlugin)] :
                List (String × AxiomPlugin Unit)).lookup "missing-ax" = none := rfl
            rw [h1] at hf
            exact absurd hf (by simp)
          · exact absurd h0 (List.not_mem_nil _))
  · exact c8_axiom_fault_asymmetry.2 Unit [("linguist", throwingAxiomPlugin)]
      [("linguist", "language")] () ("linguist", "language") throwingAxiomPlugin "boom"
      (List.mem_cons_self ..) rfl rfl

end Repolinter
